import Mathlib

/-!
Shallow embedding of the geometric core of `simple-ortho`
(`simple_ortho/enums.py` and `simple_ortho/utils.py`): the interpolation
policy, the distortion remapping engine, grid-aligned window expansion,
NaN-aware equality and UTM CRS derivation.

Machine floats are modelled by exact rationals (`ℚ`) plus an explicit NaN
constructor where NaN semantics matter; numpy arrays by lists or by
(rows, cols, lookup-function) images.  External collaborators (the OpenCV
`remap` backend's interpolating sampler, the camera calibration) enter as
explicit parameters, so theorems quantify over them.
-/

namespace SimpleOrtho

/-! ### enums.py: `Interp` and its OpenCV conversion

`Interp` is the closed enumeration {average, bilinear, cubic, lanczos,
nearest}.  `to_cv` mirrors `Interp.to_cv`: a lookup of the member name in
the `name_to_cv` dict, raising (here: `Except.error`) when the name is
absent.  `cv_list` mirrors `Interp.cv_list`: the members for which `to_cv`
does not raise, in enum declaration order. -/

/-- Errors raised by the embedded code.  `dimensionMismatch` stands for the
`ValueError` of `distort_image` (the spec's `DimensionMismatchError`);
`unsupportedMethod` for the `ValueError` of `Interp.to_cv` (the spec's
`UnsupportedMethodError`). -/
inductive UtilError where
  | dimensionMismatch
  | unsupportedMethod (methodName : String)
deriving DecidableEq, Repr

inductive Interp where
  | average
  | bilinear
  | cubic
  | lanczos
  | nearest
deriving DecidableEq, Repr

/-- The `_name_` of an `Interp` member. -/
def Interp.name : Interp → String
  | .average => "average"
  | .bilinear => "bilinear"
  | .cubic => "cubic"
  | .lanczos => "lanczos"
  | .nearest => "nearest"

/-- `list(Interp)`: the members in declaration order. -/
def Interp.list : List Interp :=
  [.average, .bilinear, .cubic, .lanczos, .nearest]

/-- OpenCV interpolation flag values (cv2.INTER_*). -/
def INTER_NEAREST : Nat := 0
def INTER_LINEAR : Nat := 1
def INTER_CUBIC : Nat := 2
def INTER_AREA : Nat := 3
def INTER_LANCZOS4 : Nat := 4

/-- The `name_to_cv` dict of `Interp.to_cv`, as an association list in the
source's key order. -/
def name_to_cv : List (String × Nat) :=
  [("average", INTER_AREA), ("bilinear", INTER_LINEAR), ("cubic", INTER_CUBIC),
   ("lanczos", INTER_LANCZOS4), ("nearest", INTER_NEAREST)]

/-- `Interp.to_cv`: look the member's name up in `name_to_cv`; raise when the
name is not a key. -/
def Interp.to_cv (i : Interp) : Except UtilError Nat :=
  match name_to_cv.lookup i.name with
  | some c => Except.ok c
  | none => Except.error (.unsupportedMethod i.name)

/-- `Interp.cv_list`: the members whose `to_cv` succeeds, collected in
declaration order (the source appends inside `try`, skipping on
`ValueError`). -/
def Interp.cv_list : List Interp :=
  Interp.list.filter (fun i => i.to_cv.isOk)

/-! ### utils.py: `nan_equals`

numpy floats are modelled by `NpVal`: either NaN or an exact number.
`NpVal.npEq` is numpy's `==` (NaN unequal to everything, itself included);
`NpVal.isnan` is `np.isnan`.  `nan_equals` is the source expression
`(a == b) | (np.isnan(a) & np.isnan(b))`, and `nan_equals_arr` its
elementwise form on arrays of matching length. -/

inductive NpVal where
  | nan
  | num (x : ℚ)
deriving DecidableEq, Repr

/-- numpy `==` on two values: numeric equality; false whenever either side
is NaN. -/
def NpVal.npEq : NpVal → NpVal → Bool
  | .num a, .num b => a == b
  | _, _ => false

/-- `np.isnan`. -/
def NpVal.isnan : NpVal → Bool
  | .nan => true
  | .num _ => false

/-- `nan_equals(a, b) = (a == b) | (np.isnan(a) & np.isnan(b))`, scalar
form. -/
def nan_equals (a b : NpVal) : Bool :=
  a.npEq b || (a.isnan && b.isnan)

/-- `nan_equals` broadcast elementwise over two arrays of the same shape. -/
def nan_equals_arr (a b : List NpVal) : List Bool :=
  List.zipWith nan_equals a b

/-! ### utils.py: `utm_crs_from_latlon`

`zone = int(np.floor((lon + 180) / 6) % 60) + 1`;
`epsg = 32600 + zone if lat >= 0 else 32700 + zone`.  Python's `%` on a
positive modulus is non-negative, which is `Int.emod` (`%` on `ℤ`).  The
returned CRS is identified by its EPSG code. -/

/-- `utm_crs_from_latlon`: the EPSG code of the UTM CRS for (lat, lon) in
degrees. -/
def utm_crs_from_latlon (lat lon : ℚ) : ℤ :=
  let zone : ℤ := ⌊(lon + 180) / 6⌋ % 60 + 1
  if lat ≥ 0 then 32600 + zone else 32700 + zone

/-! ### utils.py: `expand_window_to_grid`

A rasterio `Window` has (possibly fractional) `col_off`, `row_off`,
`width`, `height`.  `np.divmod(x, 1)` is `(⌊x⌋, x - ⌊x⌋)`, i.e.
`Int.floor` and `Int.fract`; `np.ceil` rounding the result `.astype('int')`
is `Int.ceil`.  The output window's components are integers
(`IntWindow`). -/

structure Window where
  col_off : ℚ
  row_off : ℚ
  width : ℚ
  height : ℚ

structure IntWindow where
  col_off : ℤ
  row_off : ℤ
  width : ℤ
  height : ℤ
deriving DecidableEq, Repr

/-- `expand_window_to_grid(win, expand_pixels)`: expand window extents to
the nearest whole numbers; `expand_pixels` is `(rows, cols)` padding. -/
def expand_window_to_grid (win : Window) (expand_pixels : ℤ × ℤ) : IntWindow :=
  let col_off : ℤ := ⌊win.col_off - (expand_pixels.2 : ℚ)⌋
  let col_frac : ℚ := Int.fract (win.col_off - (expand_pixels.2 : ℚ))
  let row_off : ℤ := ⌊win.row_off - (expand_pixels.1 : ℚ)⌋
  let row_frac : ℚ := Int.fract (win.row_off - (expand_pixels.1 : ℚ))
  let width : ℤ := ⌈win.width + 2 * (expand_pixels.2 : ℚ) + col_frac⌉
  let height : ℤ := ⌈win.height + 2 * (expand_pixels.1 : ℚ) + row_frac⌉
  ⟨col_off, row_off, width, height⟩

/-! ### utils.py: `distort_image`

An image is rows × cols of samples behind a lookup function (numpy 2-D
array; a higher-dimensional array never passes the dimension check, whose
comparison with the 2-element `_im_size` fails).  A camera supplies the
`_im_size = (width, height)` pair, the vectorized `_pixel_to_camera`
(modelled per point: one (column, row) pixel to one camera-space (x, y, z)
triple), and the 3×3 `_K_undistort` matrix (three row triples).

`cv2.remap(image, map1, map2, flag, dst, borderMode=BORDER_TRANSPARENT)`
is an external backend: it is modelled by a caller-supplied `sample`
function taking the OpenCV interpolation flag, the source image and one
(x, y) source coordinate, and returning the interpolated sample, or
`none` when the lookup falls outside the source bounds or the coordinate
is non-finite.  With `dst` pre-filled `np.full_like(image, nodata)` and
`BORDER_TRANSPARENT`, an unsampled destination pixel keeps `nodata`; an
`Except.error` result models a raised exception, carrying no buffer. -/

structure Img (α : Type) where
  rows : ℕ
  cols : ℕ
  px : ℕ → ℕ → α

structure Camera where
  im_size : ℕ × ℕ
  pixel_to_camera : ℚ × ℚ → ℚ × ℚ × ℚ
  K_undistort : (ℚ × ℚ × ℚ) × (ℚ × ℚ × ℚ) × (ℚ × ℚ × ℚ)

/-- Dot product of two coordinate triples. -/
def dot3 (r v : ℚ × ℚ × ℚ) : ℚ :=
  r.1 * v.1 + r.2.1 * v.2.1 + r.2.2 * v.2.2

/-- `camera._K_undistort.dot(camera_xyz)[:2]`: rows 0 and 1 of the 3×3
matrix applied to one camera-space triple. -/
def undistort_map (K : (ℚ × ℚ × ℚ) × (ℚ × ℚ × ℚ) × (ℚ × ℚ × ℚ))
    (v : ℚ × ℚ × ℚ) : ℚ × ℚ :=
  (dot3 K.1 v, dot3 K.2.1 v)

/-- An H×W grid of values, row-major, as numpy builds them. -/
def npGrid {β : Type} (W H : ℕ) (f : ℕ → ℕ → β) : List (List β) :=
  (List.range H).map (fun r => (List.range W).map (f r))

/-- `np.meshgrid(j_range, i_range, indexing='xy')[0]`: the grid of column
indices. -/
def j_grid (W H : ℕ) : List (List ℕ) := npGrid W H (fun _ j => j)

/-- `np.meshgrid(j_range, i_range, indexing='xy')[1]`: the grid of row
indices. -/
def i_grid (W H : ℕ) : List (List ℕ) := npGrid W H (fun i _ => i)

/-- `np.row_stack((j_grid.reshape(1, -1), i_grid.reshape(1, -1)))` read off
column by column: the flattened (column, row) coordinate pairs. -/
def ji_coords (W H : ℕ) : List (ℕ × ℕ) :=
  List.zip (j_grid W H).flatten (i_grid W H).flatten

/-- `distort_image(camera, image, nodata, interp)`: check the image shape
reversed against the camera image size, build the full (column, row) grid,
push it through `_pixel_to_camera` and rows 0–1 of `_K_undistort`, and
remap the source image through the resulting per-output-pixel lookup map
(`sample`, the OpenCV backend), leaving `nodata` where the lookup yields
nothing. -/
def distort_image {α : Type} (camera : Camera) (image : Img α)
    (sample : Nat → Img α → ℚ → ℚ → Option α) (nodata : α) (interp : Interp) :
    Except UtilError (Img α) :=
  if (image.cols, image.rows) ≠ camera.im_size then
    Except.error .dimensionMismatch
  else
    match interp.to_cv with
    | Except.error e => Except.error e
    | Except.ok cvFlag =>
      let W := camera.im_size.1
      let H := camera.im_size.2
      let undist_ji : List (ℚ × ℚ) :=
        (ji_coords W H).map (fun p =>
          undistort_map camera.K_undistort
            (camera.pixel_to_camera ((p.1 : ℚ), (p.2 : ℚ))))
      Except.ok ⟨image.rows, image.cols, fun i j =>
        match undist_ji[i * W + j]? with
        | some q => (sample cvFlag image q.1 q.2).getD nodata
        | none => nodata⟩

/-! ## Theorems -/

/-- The lookup of every member's name in `name_to_cv` succeeds: the raising
branch of `Interp.to_cv` is unreachable. -/
theorem to_cv_ok : ∀ i : Interp, ∃ c, i.to_cv = Except.ok c := by
  intro i
  cases i <;> exact ⟨_, rfl⟩

/-- C7: converting an interpolation method of the enumeration
{average, bilinear, cubic, lanczos, nearest} to the remap (OpenCV) backend
constant fails with an `UnsupportedMethodError` exactly when the method is
not in the backend-supported set `Interp.cv_list`, succeeds for every
method in that set, and for the remap backend all five methods are
supported (`cv_list` is the whole enumeration). -/
theorem interp_to_cv_supported :
    ∀ m : Interp,
      ((∃ e, m.to_cv = Except.error e) ↔ m ∉ Interp.cv_list) ∧
      (m ∈ Interp.cv_list → ∃ c, m.to_cv = Except.ok c) ∧
      Interp.cv_list = Interp.list := by
  intro m
  refine ⟨?_, fun _ => ?_, by decide⟩
  · cases m <;>
      simp [Interp.to_cv, Interp.cv_list, Interp.list, Interp.name, name_to_cv,
        List.lookup, Except.isOk, Except.toBool, List.filter]
  · cases m <;> exact ⟨_, rfl⟩

/-- C4: `nan_equals` is true exactly where the elements are ordinarily
equal (numpy `==`) or both NaN; elementwise it computes that predicate at
every common position; and `nan_equals(NaN, NaN)`, `nan_equals(1, NaN)`,
`nan_equals(1, 1)` are true, false, true. -/
theorem nan_equals_spec :
    (∀ a b : NpVal,
        nan_equals a b = true ↔
          (a.npEq b = true ∨ (a.isnan = true ∧ b.isnan = true))) ∧
    (∀ (a b : List NpVal) (i : ℕ),
        (nan_equals_arr a b).get? i =
          ((a.get? i).map nan_equals).bind fun g => (b.get? i).map g) ∧
    nan_equals .nan .nan = true ∧
    nan_equals (.num 1) .nan = false ∧
    nan_equals (.num 1) (.num 1) = true := by
  refine ⟨fun a b => ?_, fun a b i => ?_, by decide, by decide, by decide⟩
  · simp [nan_equals, Bool.or_eq_true, Bool.and_eq_true]
  · exact List.get?_zipWith' nan_equals a b i

/-- C9: `nan_equals` is symmetric, both as a scalar comparison and
elementwise on arrays. -/
theorem nan_equals_symm :
    ∀ a b : NpVal, nan_equals a b = nan_equals b a := by
  intro a b
  cases a with
  | nan => cases b <;> rfl
  | num x =>
    cases b with
    | nan => rfl
    | num y =>
      by_cases h : x = y
      · subst h; rfl
      · simp [nan_equals, NpVal.npEq, NpVal.isnan, h, Ne.symm h]

/-- C3: for every latitude and longitude, `utm_crs_from_latlon` returns
EPSG `32600 + zone` when `lat ≥ 0` (latitude 0 counted as northern
hemisphere) and `32700 + zone` otherwise, where
`zone = ⌊(lon + 180)/6⌋ % 60 + 1` lies in [1, 60]; in particular
(-33.9, 18.4) yields EPSG 32734 and (51.5, -0.1) yields EPSG 32630. -/
theorem utm_crs_from_latlon_spec :
    (∀ lat lon : ℚ,
        utm_crs_from_latlon lat lon =
          (if 0 ≤ lat then 32600 else 32700) + (⌊(lon + 180) / 6⌋ % 60 + 1) ∧
        1 ≤ ⌊(lon + 180) / 6⌋ % 60 + 1 ∧ ⌊(lon + 180) / 6⌋ % 60 + 1 ≤ 60) ∧
    utm_crs_from_latlon (-339/10) (92/5) = 32734 ∧
    utm_crs_from_latlon (103/2) (-1/10) = 32630 := by
  refine ⟨fun lat lon => ⟨?_, ?_, ?_⟩, ?_, ?_⟩
  · unfold utm_crs_from_latlon
    by_cases h : 0 ≤ lat <;> simp [h, ge_iff_le]
  · have h := Int.emod_nonneg ⌊(lon + 180) / 6⌋ (by norm_num : (60:ℤ) ≠ 0)
    omega
  · have h := Int.emod_lt_of_pos ⌊(lon + 180) / 6⌋ (by norm_num : (0:ℤ) < 60)
    omega
  · unfold utm_crs_from_latlon; norm_num
  · unfold utm_crs_from_latlon; norm_num

/-- A flattened H×W row-major grid has H·W entries. -/
theorem npGrid_flatten_length {β : Type} (W H : ℕ) (f : ℕ → ℕ → β) :
    (npGrid W H f).flatten.length = H * W := by
  simp [npGrid, List.length_flatten, List.map_map, Function.comp_def]

/-- Entry `i·W + j` of a flattened H×W row-major grid is the grid value at
row `i`, column `j`. -/
theorem npGrid_flatten_get {β : Type} (W : ℕ) (f : ℕ → ℕ → β) :
    ∀ H i j, i < H → j < W → (npGrid W H f).flatten[i * W + j]? = some (f i j) := by
  intro H
  induction H with
  | zero => intro i j hi _; omega
  | succ H ih =>
    intro i j hi hj
    rw [npGrid, List.range_succ, List.map_append, List.flatten_append]
    have hlen : (npGrid W H f).flatten.length = H * W := npGrid_flatten_length W H f
    rcases Nat.lt_succ_iff_lt_or_eq.1 hi with h | h
    · rw [List.getElem?_append_left]
      · exact ih i j h hj
      · rw [show ((List.range H).map fun r => (List.range W).map (f r)) = npGrid W H f from rfl,
          hlen]
        calc i * W + j < i * W + W := by omega
          _ = (i + 1) * W := (Nat.succ_mul i W).symm
          _ ≤ H * W := Nat.mul_le_mul_right W h
    · rw [List.getElem?_append_right]
      · rw [show ((List.range H).map fun r => (List.range W).map (f r)) = npGrid W H f from rfl,
          hlen, h]
        simp only [List.map_cons, List.map_nil, List.flatten_cons, List.flatten_nil,
          List.append_nil, Nat.add_sub_cancel_left]
        rw [List.getElem?_map, List.getElem?_range hj]
        rfl
      · rw [show ((List.range H).map fun r => (List.range W).map (f r)) = npGrid W H f from rfl,
          hlen, h]
        omega

/-- Entry `i·W + j` of the stacked flattened meshgrid is the (column, row)
pair (j, i). -/
theorem ji_coords_get (W H i j : ℕ) (hi : i < H) (hj : j < W) :
    (ji_coords W H)[i * W + j]? = some (j, i) := by
  unfold ji_coords j_grid i_grid
  exact List.getElem?_zip_eq_some.2
    ⟨npGrid_flatten_get W _ H i j hi hj, npGrid_flatten_get W _ H i j hi hj⟩

/-- Offset-plus-extent identity of `expand_window_to_grid`: along one axis,
the expanded window's far edge `⌊off - pad⌋ + ⌈ext + 2·pad + fract (off - pad)⌉`
is exactly `⌈off + ext + pad⌉`. -/
theorem expand_edge_eq (off ext pad : ℚ) :
    ⌊off - pad⌋ + ⌈ext + 2 * pad + Int.fract (off - pad)⌉ = ⌈off + ext + pad⌉ := by
  have h : ext + 2 * pad + Int.fract (off - pad)
      = (off + ext + pad) - (⌊off - pad⌋ : ℚ) := by
    rw [← Int.self_sub_floor]
    ring
  rw [h, Int.ceil_sub_int]
  omega

/-- C8: `expand_window_to_grid` floors the offsets after subtracting the
padding and ceils the extents after adding the offset's fractional
remainder to the extent plus twice the padding, so the aligned window
always contains the original window expanded by the requested padding,
never less. -/
theorem expand_window_policy :
    ∀ (win : Window) (p0 p1 : ℤ),
      (expand_window_to_grid win (p0, p1)).col_off = ⌊win.col_off - (p1:ℚ)⌋ ∧
      (expand_window_to_grid win (p0, p1)).row_off = ⌊win.row_off - (p0:ℚ)⌋ ∧
      (expand_window_to_grid win (p0, p1)).width =
        ⌈win.width + 2 * (p1:ℚ) + Int.fract (win.col_off - (p1:ℚ))⌉ ∧
      (expand_window_to_grid win (p0, p1)).height =
        ⌈win.height + 2 * (p0:ℚ) + Int.fract (win.row_off - (p0:ℚ))⌉ ∧
      ((expand_window_to_grid win (p0, p1)).col_off : ℚ) ≤ win.col_off - p1 ∧
      ((expand_window_to_grid win (p0, p1)).row_off : ℚ) ≤ win.row_off - p0 ∧
      win.col_off + win.width + p1 ≤
        (((expand_window_to_grid win (p0, p1)).col_off +
          (expand_window_to_grid win (p0, p1)).width : ℤ) : ℚ) ∧
      win.row_off + win.height + p0 ≤
        (((expand_window_to_grid win (p0, p1)).row_off +
          (expand_window_to_grid win (p0, p1)).height : ℤ) : ℚ) := by
  intro win p0 p1
  refine ⟨rfl, rfl, rfl, rfl, Int.floor_le _, Int.floor_le _, ?_, ?_⟩
  · show win.col_off + win.width + (p1:ℚ) ≤
      ((⌊win.col_off - (p1:ℚ)⌋ +
        ⌈win.width + 2 * (p1:ℚ) + Int.fract (win.col_off - (p1:ℚ))⌉ : ℤ) : ℚ)
    rw [expand_edge_eq]
    exact Int.le_ceil _
  · show win.row_off + win.height + (p0:ℚ) ≤
      ((⌊win.row_off - (p0:ℚ)⌋ +
        ⌈win.height + 2 * (p0:ℚ) + Int.fract (win.row_off - (p0:ℚ))⌉ : ℤ) : ℚ)
    rw [expand_edge_eq]
    exact Int.le_ceil _

/-- C2: for any window and any non-negative padding (rows, cols),
`expand_window_to_grid` returns the smallest whole-pixel window fully
containing the input window expanded outward by the padding on each side:
it contains the padded window, and every integer window containing the
padded window contains it.  At (col_off 2.3, row_off 1.6, width 4.8,
height 5.1) with padding (0, 0) the result is (2, 1, 6, 6): offsets ≤ 2
and ≤ 1, covering columns [2.3, 7.1] and rows [1.6, 6.7]. -/
theorem expand_window_minimal :
    (∀ (win : Window) (pr pc : ℕ),
        (((expand_window_to_grid win ((pr:ℤ), (pc:ℤ))).col_off : ℚ) ≤
            win.col_off - pc ∧
          win.col_off + win.width + pc ≤
            (((expand_window_to_grid win ((pr:ℤ), (pc:ℤ))).col_off +
              (expand_window_to_grid win ((pr:ℤ), (pc:ℤ))).width : ℤ) : ℚ)) ∧
        (((expand_window_to_grid win ((pr:ℤ), (pc:ℤ))).row_off : ℚ) ≤
            win.row_off - pr ∧
          win.row_off + win.height + pr ≤
            (((expand_window_to_grid win ((pr:ℤ), (pc:ℤ))).row_off +
              (expand_window_to_grid win ((pr:ℤ), (pc:ℤ))).height : ℤ) : ℚ)) ∧
        (∀ o e : ℤ, (o:ℚ) ≤ win.col_off - pc →
            win.col_off + win.width + pc ≤ (o:ℚ) + (e:ℚ) →
            o ≤ (expand_window_to_grid win ((pr:ℤ), (pc:ℤ))).col_off ∧
            (expand_window_to_grid win ((pr:ℤ), (pc:ℤ))).col_off +
              (expand_window_to_grid win ((pr:ℤ), (pc:ℤ))).width ≤ o + e) ∧
        (∀ o e : ℤ, (o:ℚ) ≤ win.row_off - pr →
            win.row_off + win.height + pr ≤ (o:ℚ) + (e:ℚ) →
            o ≤ (expand_window_to_grid win ((pr:ℤ), (pc:ℤ))).row_off ∧
            (expand_window_to_grid win ((pr:ℤ), (pc:ℤ))).row_off +
              (expand_window_to_grid win ((pr:ℤ), (pc:ℤ))).height ≤ o + e)) ∧
    expand_window_to_grid ⟨23/10, 8/5, 24/5, 51/10⟩ (0, 0) = ⟨2, 1, 6, 6⟩ ∧
    ((2:ℚ) ≤ 23/10 ∧ (23:ℚ)/10 + 24/5 ≤ 2 + 6) ∧
    ((1:ℚ) ≤ 8/5 ∧ (8:ℚ)/5 + 51/10 ≤ 1 + 6) := by
  refine ⟨fun win pr pc => ?_, ?_, by norm_num, by norm_num⟩
  · have h := expand_window_policy win (pr:ℤ) (pc:ℤ)
    obtain ⟨hc, hr, hw, hh, hcl, hrl, hcr, hrr⟩ := h
    refine ⟨⟨?_, ?_⟩, ⟨?_, ?_⟩, fun o e ho he => ⟨?_, ?_⟩, fun o e ho he => ⟨?_, ?_⟩⟩
    · exact_mod_cast hcl
    · exact_mod_cast hcr
    · exact_mod_cast hrl
    · exact_mod_cast hrr
    · rw [hc]
      exact Int.le_floor.2 (by push_cast; linarith)
    · rw [hc, hw, expand_edge_eq]
      refine Int.ceil_le.2 ?_
      push_cast
      push_cast at he
      linarith
    · rw [hr]
      exact Int.le_floor.2 (by push_cast; linarith)
    · rw [hr, hh, expand_edge_eq]
      refine Int.ceil_le.2 ?_
      push_cast
      push_cast at he
      linarith
  · unfold expand_window_to_grid
    norm_num [Int.fract, Int.ceil_eq_iff]

/-- C10: `expand_window_to_grid` reads its padding argument in
(rows, cols) order: the row offset and height depend only on element 0,
which is subtracted from the row offset, and the column offset and width
depend only on element 1, which is subtracted from the column offset. -/
theorem expand_window_pad_order :
    ∀ (win : Window) (p0 p1 q0 q1 : ℤ),
      (expand_window_to_grid win (p0, p1)).row_off =
        (expand_window_to_grid win (p0, q1)).row_off ∧
      (expand_window_to_grid win (p0, p1)).height =
        (expand_window_to_grid win (p0, q1)).height ∧
      (expand_window_to_grid win (p0, p1)).col_off =
        (expand_window_to_grid win (q0, p1)).col_off ∧
      (expand_window_to_grid win (p0, p1)).width =
        (expand_window_to_grid win (q0, p1)).width ∧
      (expand_window_to_grid win (p0, p1)).row_off = ⌊win.row_off - (p0:ℚ)⌋ ∧
      (expand_window_to_grid win (p0, p1)).col_off = ⌊win.col_off - (p1:ℚ)⌋ := by
  intro win p0 p1 q0 q1
  exact ⟨rfl, rfl, rfl, rfl, rfl, rfl⟩

/-- C1: `distort_image` raises its `DimensionMismatchError` if and only if
the image's dimensions, shape reversed, differ from the camera's declared
image size; indeed any raised error is exactly that one, and the `Except`
result of a raise carries no output buffer. -/
theorem distort_image_dim_check :
    ∀ {α : Type} (camera : Camera) (image : Img α)
      (sample : Nat → Img α → ℚ → ℚ → Option α) (nodata : α) (interp : Interp),
      (distort_image camera image sample nodata interp =
          Except.error UtilError.dimensionMismatch ↔
        (image.cols, image.rows) ≠ camera.im_size) ∧
      ((∃ e, distort_image camera image sample nodata interp = Except.error e) ↔
        (image.cols, image.rows) ≠ camera.im_size) := by
  intro α camera image sample nodata interp
  obtain ⟨c, hc⟩ := to_cv_ok interp
  by_cases h : (image.cols, image.rows) ≠ camera.im_size
  · unfold distort_image
    rw [if_pos h]
    exact ⟨⟨fun _ => h, fun _ => rfl⟩, ⟨fun _ => h, fun _ => ⟨_, rfl⟩⟩⟩
  · unfold distort_image
    rw [if_neg h, hc]
    simp [h]

/-- C5: on a conforming image, `distort_image` returns the image whose
pixel (row i, column j) is the backend sample of the source image at the
source coordinate obtained by sending the (column, row) grid point (j, i)
through `_pixel_to_camera` and then rows 0–1 of `_K_undistort`, with
`nodata` where the sample lookup yields nothing, using the backend
constant of the requested interpolation method. -/
theorem distort_image_algorithm :
    ∀ {α : Type} (camera : Camera) (image : Img α)
      (sample : Nat → Img α → ℚ → ℚ → Option α) (nodata : α) (interp : Interp),
      (image.cols, image.rows) = camera.im_size →
      ∃ (out : Img α) (cvFlag : Nat),
        interp.to_cv = Except.ok cvFlag ∧
        distort_image camera image sample nodata interp = Except.ok out ∧
        ∀ i j, i < camera.im_size.2 → j < camera.im_size.1 →
          out.px i j =
            (sample cvFlag image
              (undistort_map camera.K_undistort
                (camera.pixel_to_camera ((j : ℚ), (i : ℚ)))).1
              (undistort_map camera.K_undistort
                (camera.pixel_to_camera ((j : ℚ), (i : ℚ)))).2).getD nodata := by
  intro α camera image sample nodata interp hconf
  obtain ⟨c, hc⟩ := to_cv_ok interp
  refine ⟨⟨image.rows, image.cols, fun i j =>
      match ((ji_coords camera.im_size.1 camera.im_size.2).map (fun p =>
          undistort_map camera.K_undistort
            (camera.pixel_to_camera ((p.1 : ℚ), (p.2 : ℚ)))))[i * camera.im_size.1 + j]? with
      | some q => (sample c image q.1 q.2).getD nodata
      | none => nodata⟩, c, hc, ?_, ?_⟩
  · unfold distort_image
    rw [if_neg (not_ne_iff.mpr hconf), hc]
  · intro i j hi hj
    simp only
    rw [List.getElem?_map, ji_coords_get _ _ i j hi hj]
    rfl

/-- C6: on a conforming image, `distort_image` returns a buffer of the
same shape (and, by its type, the same element type) as the input, and
every output pixel is either exactly `nodata` or a value the backend
sampled from the input image. -/
theorem distort_image_shape_preserved :
    ∀ {α : Type} (camera : Camera) (image : Img α)
      (sample : Nat → Img α → ℚ → ℚ → Option α) (nodata : α) (interp : Interp),
      (image.cols, image.rows) = camera.im_size →
      ∃ out, distort_image camera image sample nodata interp = Except.ok out ∧
        out.rows = image.rows ∧ out.cols = image.cols ∧
        ∀ i j, out.px i j = nodata ∨
          ∃ cvFlag x y v, interp.to_cv = Except.ok cvFlag ∧
            sample cvFlag image x y = some v ∧ out.px i j = v := by
  intro α camera image sample nodata interp hconf
  obtain ⟨c, hc⟩ := to_cv_ok interp
  refine ⟨⟨image.rows, image.cols, fun i j =>
      match ((ji_coords camera.im_size.1 camera.im_size.2).map (fun p =>
          undistort_map camera.K_undistort
            (camera.pixel_to_camera ((p.1 : ℚ), (p.2 : ℚ)))))[i * camera.im_size.1 + j]? with
      | some q => (sample c image q.1 q.2).getD nodata
      | none => nodata⟩, ?_, rfl, rfl, ?_⟩
  · unfold distort_image
    rw [if_neg (not_ne_iff.mpr hconf), hc]
  · intro i j
    simp only
    cases hq : ((ji_coords camera.im_size.1 camera.im_size.2).map (fun p =>
        undistort_map camera.K_undistort
          (camera.pixel_to_camera ((p.1 : ℚ), (p.2 : ℚ)))))[i * camera.im_size.1 + j]? with
    | none => left; rfl
    | some q =>
      cases hs : sample c image q.1 q.2 with
      | none => left; simp [hs]
      | some v => right; exact ⟨c, q.1, q.2, v, hc, hs, by simp [hs]⟩

/-- A concrete pinhole-like camera for evaluating the engine: 2×2 image,
identity projection with unit depth, identity undistortion intrinsics. -/
def camW : Camera :=
  ⟨(2, 2), fun p => (p.1, p.2, 1), ((1, 0, 0), (0, 1, 0), (0, 0, 1))⟩

/-- A concrete 2×2 source image. -/
def imgW : Img ℚ := ⟨2, 2, fun i j => (i : ℚ) * 2 + (j : ℚ)⟩

/-- A concrete backend sampler: floor lookup inside the source bounds,
nothing outside. -/
def sampleW : Nat → Img ℚ → ℚ → ℚ → Option ℚ :=
  fun _ img x y =>
    if 0 ≤ x ∧ x ≤ (img.cols : ℚ) - 1 ∧ 0 ≤ y ∧ y ≤ (img.rows : ℚ) - 1 then
      some (img.px ⌊y⌋.toNat ⌊x⌋.toNat)
    else none

theorem distort_image_algorithm_witness :
    ∃ (out : Img ℚ) (cvFlag : Nat),
      Interp.nearest.to_cv = Except.ok cvFlag ∧
      distort_image camW imgW sampleW 0 Interp.nearest = Except.ok out ∧
      ∀ i j, i < camW.im_size.2 → j < camW.im_size.1 →
        out.px i j =
          (sampleW cvFlag imgW
            (undistort_map camW.K_undistort
              (camW.pixel_to_camera ((j : ℚ), (i : ℚ)))).1
            (undistort_map camW.K_undistort
              (camW.pixel_to_camera ((j : ℚ), (i : ℚ)))).2).getD 0 :=
  distort_image_algorithm camW imgW sampleW 0 Interp.nearest rfl

theorem distort_image_shape_preserved_witness :
    ∃ out, distort_image camW imgW sampleW 9 Interp.bilinear = Except.ok out ∧
      out.rows = imgW.rows ∧ out.cols = imgW.cols ∧
      ∀ i j, out.px i j = 9 ∨
        ∃ cvFlag x y v, Interp.bilinear.to_cv = Except.ok cvFlag ∧
          sampleW cvFlag imgW x y = some v ∧ out.px i j = v :=
  distort_image_shape_preserved camW imgW sampleW 9 Interp.bilinear rfl

end SimpleOrtho
